import Mathlib

/-!
Shallow embedding of the ufrj_dashboard ingestion pipeline
(`src/database/openalex_work_parser.py`, `src/database/db_handlers.py`,
`src/database/openalex_works_retriever.py`) together with proofs about it.

JSON values (as produced by Python's `json` module) are modelled by `Json`;
Python's `None` and JSON `null` are both `Json.null` (they are the same
Python object).  Fallible Python code (attribute errors, type errors,
`raise`) is modelled in `Except String`.
-/

inductive Json where
  | null : Json
  | bool (b : Bool) : Json
  | num (n : Int) : Json
  | str (s : String) : Json
  | arr (elems : List Json) : Json
  | obj (fields : List (String × Json)) : Json

/-- Python truthiness (`bool(x)`) for the JSON-representable values:
`None`, `False`, `0`, `""`, `[]` and `{}` are falsy, everything else truthy. -/
def truthy : Json → Bool
  | .null => false
  | .bool b => b
  | .num n => n != 0
  | .str s => s != ""
  | .arr xs => !xs.isEmpty
  | .obj fs => !fs.isEmpty

/-- Python `x or {}`: the left operand if truthy, else the empty dict. -/
def orEmptyObj (j : Json) : Json :=
  if truthy j then j else .obj []

/-- Python `d.get(k, default)`: succeeds only on a dict; returns the stored
value (which may itself be `null`) or the default when the key is absent.
On a non-dict receiver Python raises `AttributeError`. -/
def pyGetD (j : Json) (k : String) (d : Json) : Except String Json :=
  match j with
  | .obj fs => .ok ((fs.lookup k).getD d)
  | _ => .error "AttributeError"

/-- Python `d.get(k)` (default `None`). -/
def pyGet (j : Json) (k : String) : Except String Json :=
  pyGetD j k .null

/-- Python `for x in v`: lists iterate elements, strings iterate one-character
strings, dicts iterate their keys; other values raise `TypeError`. -/
def pyIter (j : Json) : Except String (List Json) :=
  match j with
  | .arr xs => .ok xs
  | .str s => .ok (s.toList.map (fun c => .str (String.mk [c])))
  | .obj fs => .ok (fs.map (fun p => .str p.1))
  | _ => .error "TypeError"

/-- Python `s.rstrip('/')` on the character list of a string. -/
def rstripSlash (cs : List Char) : List Char :=
  (cs.reverse.dropWhile (fun c => c == '/')).reverse

/-- Python `sep in s` for strings: `sep` occurs as a contiguous substring. -/
def containsSub (sep : List Char) : List Char → Bool
  | [] => sep.isEmpty
  | c :: rest => sep.isPrefixOf (c :: rest) || containsSub sep rest

/-- Helper for Python `s.split(sep)[-1]` with a nonempty separator: scanning
left to right for non-overlapping occurrences of `sep`, return the text after
the last occurrence (`none` when `sep` does not occur).  The fuel argument is
an upper bound on the number of scanning steps; `fuel = cs.length` always
suffices because every step consumes at least one character. -/
def afterLastMatch (sep : List Char) : Nat → List Char → Option (List Char)
  | 0, _ => none
  | _ + 1, [] => none
  | fuel + 1, c :: rest =>
    if sep.isPrefixOf (c :: rest) then
      let remainder := (c :: rest).drop sep.length
      some ((afterLastMatch sep fuel remainder).getD remainder)
    else
      afterLastMatch sep fuel rest

/-- Python `s.split(sep)[-1]` for a nonempty separator: the text after the
last non-overlapping occurrence of `sep`, or all of `cs` if `sep` does not
occur in it. -/
def splitLast (sep cs : List Char) : List Char :=
  (afterLastMatch sep cs.length cs).getD cs

/-- Core of `OpenAlexWorkParser._clean_id` on a nonempty string: strip
trailing slashes; if the lowercased string contains `doi.org/` split on that
marker (case-sensitively, as the source does) and keep the last part;
otherwise keep the part after the last `/`. -/
def cleanChars (cs : List Char) : List Char :=
  let t := rstripSlash cs
  if containsSub ("doi.org/".toList) (t.map Char.toLower) then
    splitLast ("doi.org/".toList) t
  else
    splitLast (['/']) t

/-- String-level wrapper of `cleanChars`. -/
def cleanCore (s : String) : String :=
  String.mk (cleanChars s.toList)

/-- `OpenAlexWorkParser._clean_id`: `if not id_str: return None`, then
`rstrip('/')`, then the DOI-marker / last-segment split.  A falsy argument
(`None`, `""`, `0`, `[]`, ...) yields `None`; a truthy non-string raises
`AttributeError` (no `rstrip` method). -/
def _clean_id (id_str : Json) : Except String Json :=
  if truthy id_str then
    match id_str with
    | .str s => .ok (.str (cleanCore s))
    | _ => .error "AttributeError"
  else
    .ok .null

example : _clean_id (.str "https://openalex.org/W123456789/") = .ok (.str "W123456789") := by rfl
example : _clean_id (.str "https://doi.org/10.1234/abc") = .ok (.str "10.1234/abc") := by rfl
example : _clean_id .null = .ok .null := by rfl

/-- C4 (code bug): `_clean_id` detects the `doi.org/` marker case-insensitively
(via `id_str.lower()`), but the extraction `id_str.split('doi.org/')` is
case-sensitive, so an upper-case DOI-resolver URL is returned whole, contrary
to the claim (and to the function's own docstring, which promises the part
after the last separator). -/
theorem c4_clean_id_doi_case_bug :
    _clean_id (.str "https://doi.org/10.1234/abc") = .ok (.str "10.1234/abc")
    ∧ _clean_id (.str "https://DOI.ORG/10.1234/abc")
        = .ok (.str "https://DOI.ORG/10.1234/abc") := by
  exact ⟨rfl, rfl⟩

/-- C5 counterexample: a whitespace-only string is truthy in Python, so
`_clean_id(" ")` returns `" "` itself, not the null marker claimed. -/
theorem c5_clean_id_whitespace_counterexample :
    _clean_id (.str " ") = .ok (.str " ") ∧ Json.str " " ≠ Json.null := by
  exact ⟨rfl, fun h => Json.noConfusion h⟩

/-- C5 (amended): `_clean_id` never raises on a string input; it returns the
null marker exactly for a null/absent input or the empty string, and for any
other string (including whitespace-only or otherwise malformed ones) it
returns some string. -/
theorem c5_clean_id_total :
    _clean_id .null = .ok .null
    ∧ _clean_id (.str "") = .ok .null
    ∧ ∀ s : String, s ≠ "" → _clean_id (.str s) = .ok (.str (cleanCore s)) := by
  refine ⟨rfl, rfl, fun s hs => ?_⟩
  simp [_clean_id, truthy, hs]

/-- Witness for `c5_clean_id_total` at the whitespace-only string. -/
theorem c5_clean_id_total_witness :
    (" " : String) ≠ "" ∧ _clean_id (.str " ") = .ok (.str (cleanCore " ")) := by
  exact ⟨by decide, c5_clean_id_total.2.2 " " (by decide)⟩

/-!
`DatabaseHandler.insert_if_not_exists` (src/database/db_handlers.py).

A candidate row is a Python dict; its values may be `None` (so they are
`Option β` for an arbitrary value type `β` with decidable equality — the
handler is generic in the table's column types).  `dbGet r k` is
`value.get(key)`: `none` when the key is absent or stored as `None`.
The table state is the list of persisted rows.  For each candidate the
source skips it when a primary-key component is `None`/missing, otherwise
runs a `SELECT` on primary-key equality and `INSERT`s only when no row
matched.
-/

/-- A candidate or persisted row: a dict from column names to nullable values. -/
abbrev DBRow (β : Type) := List (String × Option β)

/-- Python `value.get(key)`: `none` if `key` is absent or maps to `None`. -/
def dbGet {β : Type} (r : DBRow β) (k : String) : Option β :=
  (r.lookup k).getD none

/-- `any(value.get(key) is None for key in primary_keys)`. -/
def missingPK {β : Type} [DecidableEq β] (pks : List String) (v : DBRow β) : Bool :=
  pks.any (fun k => dbGet v k == none)

/-- The `SELECT`'s `WHERE` condition: every primary-key column of the stored
row `r` equals the candidate `v`'s value for that column. -/
def pkMatches {β : Type} [DecidableEq β] (pks : List String) (v r : DBRow β) : Bool :=
  pks.all (fun k => dbGet r k == dbGet v k)

/-- One iteration of the `for value in values` loop of
`insert_if_not_exists`: skip on missing primary key, skip when a row with
the same key already exists, otherwise append the new row. -/
def insertRow {β : Type} [DecidableEq β] (pks : List String)
    (st : List (DBRow β)) (v : DBRow β) : List (DBRow β) :=
  if missingPK pks v then st
  else if st.any (fun r => pkMatches pks v r) then st
  else st ++ [v]

/-- `DatabaseHandler.insert_if_not_exists` over a batch of candidate rows
(the source wraps a single dict into a one-element list first). -/
def insert_if_not_exists {β : Type} [DecidableEq β] (pks : List String)
    (st : List (DBRow β)) (values : List (DBRow β)) : List (DBRow β) :=
  values.foldl (insertRow pks) st

theorem pkMatches_self {β : Type} [DecidableEq β] (pks : List String) (v : DBRow β) :
    pkMatches pks v v = true := by
  simp [pkMatches]

/-- Inserting a batch only ever appends rows to the state. -/
theorem insert_if_not_exists_append {β : Type} [DecidableEq β] (pks : List String)
    (values : List (DBRow β)) : ∀ st, ∃ t, insert_if_not_exists pks st values = st ++ t := by
  induction values with
  | nil => exact fun st => ⟨[], by simp [insert_if_not_exists]⟩
  | cons v rest ih =>
    intro st
    have hstep : ∃ u, insertRow pks st v = st ++ u := by
      unfold insertRow
      split
      · exact ⟨[], by simp⟩
      · split
        · exact ⟨[], by simp⟩
        · exact ⟨[v], rfl⟩
    obtain ⟨u, hu⟩ := hstep
    obtain ⟨t, ht⟩ := ih (insertRow pks st v)
    refine ⟨u ++ t, ?_⟩
    calc insert_if_not_exists pks st (v :: rest)
        = insert_if_not_exists pks (insertRow pks st v) rest := rfl
      _ = insertRow pks st v ++ t := ht
      _ = st ++ (u ++ t) := by rw [hu, List.append_assoc]

/-- A candidate is "handled" by a state when it would be skipped: missing
primary key, or a row with its key already present. -/
def handledRow {β : Type} [DecidableEq β] (pks : List String)
    (st : List (DBRow β)) (v : DBRow β) : Prop :=
  missingPK pks v = true ∨ st.any (fun r => pkMatches pks v r) = true

theorem insertRow_of_handled {β : Type} [DecidableEq β] {pks : List String}
    {st : List (DBRow β)} {v : DBRow β} (h : handledRow pks st v) :
    insertRow pks st v = st := by
  unfold insertRow
  rcases h with h | h
  · simp [h]
  · simp [h]

theorem handledRow_append {β : Type} [DecidableEq β] {pks : List String}
    {st : List (DBRow β)} {v : DBRow β} (t : List (DBRow β))
    (h : handledRow pks st v) : handledRow pks (st ++ t) v := by
  rcases h with h | h
  · exact Or.inl h
  · refine Or.inr ?_
    rw [List.any_eq_true] at h ⊢
    obtain ⟨r, hr, hm⟩ := h
    exact ⟨r, List.mem_append_left t hr, hm⟩

theorem handledRow_insertRow {β : Type} [DecidableEq β] (pks : List String)
    (st : List (DBRow β)) (v : DBRow β) : handledRow pks (insertRow pks st v) v := by
  by_cases hm : missingPK pks v = true
  · exact Or.inl hm
  · by_cases ha : st.any (fun r => pkMatches pks v r) = true
    · refine Or.inr ?_
      simp only [insertRow, if_neg hm, if_pos ha]
      exact ha
    · refine Or.inr ?_
      simp only [insertRow, if_neg hm, if_neg ha]
      rw [List.any_eq_true]
      exact ⟨v, List.mem_append_right st (List.mem_singleton.mpr rfl), pkMatches_self pks v⟩

/-- Re-submitting an entire batch is a no-op on the state. -/
theorem insert_batch_idem {β : Type} [DecidableEq β] (pks : List String)
    (values : List (DBRow β)) :
    ∀ st, insert_if_not_exists pks (insert_if_not_exists pks st values) values
      = insert_if_not_exists pks st values := by
  induction values with
  | nil => intro st; rfl
  | cons v rest ih =>
    intro st
    have h1 : handledRow pks (insertRow pks st v) v := handledRow_insertRow pks st v
    obtain ⟨t, ht⟩ := insert_if_not_exists_append pks rest (insertRow pks st v)
    have h2 : handledRow pks (insert_if_not_exists pks (insertRow pks st v) rest) v := by
      rw [ht]; exact handledRow_append t h1
    calc insert_if_not_exists pks (insert_if_not_exists pks st (v :: rest)) (v :: rest)
        = insert_if_not_exists pks
            (insertRow pks (insert_if_not_exists pks (insertRow pks st v) rest) v) rest := rfl
      _ = insert_if_not_exists pks (insert_if_not_exists pks (insertRow pks st v) rest) rest := by
          rw [insertRow_of_handled h2]
      _ = insert_if_not_exists pks (insertRow pks st v) rest := ih (insertRow pks st v)
      _ = insert_if_not_exists pks st (v :: rest) := rfl

/-- If two candidates have equal primary keys, a stored row matching one
matches the other. -/
theorem pkMatches_trans {β : Type} [DecidableEq β] {pks : List String}
    {v w r : DBRow β} (hvw : pkMatches pks v w = true)
    (hr : pkMatches pks w r = true) : pkMatches pks v r = true := by
  simp only [pkMatches, List.all_eq_true] at hvw hr ⊢
  intro k hk
  have h1 := hvw k hk
  have h2 := hr k hk
  rw [beq_iff_eq] at h1 h2 ⊢
  rw [h2, h1]

/-- One insert step never pushes the number of rows under any key above one. -/
theorem insertRow_countP_le {β : Type} [DecidableEq β] (pks : List String)
    (st : List (DBRow β)) (v w : DBRow β)
    (h : st.countP (fun r => pkMatches pks w r) ≤ 1) :
    (insertRow pks st v).countP (fun r => pkMatches pks w r) ≤ 1 := by
  unfold insertRow
  split
  · exact h
  · split
    · exact h
    · rename_i hm ha
      rw [List.countP_append]
      by_cases hwv : pkMatches pks w v = true
      · have hzero : st.countP (fun r => pkMatches pks w r) = 0 := by
          rw [List.countP_eq_zero]
          intro r hr hmr
          have : pkMatches pks v r = true := by
            have hvw : pkMatches pks v w = true := by
              simp only [pkMatches, List.all_eq_true] at hwv ⊢
              intro k hk
              have := hwv k hk
              rw [beq_iff_eq] at this ⊢
              exact this.symm
            exact pkMatches_trans hvw hmr
          exact ha (List.any_eq_true.mpr ⟨r, hr, this⟩)
        simp [hzero, List.countP_cons, hwv]
      · have : List.countP (fun r => pkMatches pks w r) [v] = 0 := by
          simp [List.countP_cons, hwv]
        omega

/-- Inserting a batch preserves "at most one row per primary key". -/
theorem insert_batch_countP_le {β : Type} [DecidableEq β] (pks : List String)
    (values : List (DBRow β)) (w : DBRow β) :
    ∀ st, st.countP (fun r => pkMatches pks w r) ≤ 1 →
      (insert_if_not_exists pks st values).countP (fun r => pkMatches pks w r) ≤ 1 := by
  induction values with
  | nil => intro st h; exact h
  | cons v rest ih =>
    intro st h
    exact ih (insertRow pks st v) (insertRow_countP_le pks st v w h)

/-- C1: with all primary-key components non-null and at most one pre-existing
row under the candidate's key, running `insert_if_not_exists` twice with the
identical row leaves exactly one persisted row under that key and the second
call is a no-op on the state (no duplicate row, hence no duplicate-key
violation); moreover re-submitting any entire batch is a no-op, and batch
insertion preserves the at-most-one-row-per-key invariant. -/
theorem c1_insert_if_not_exists_idempotent {β : Type} [DecidableEq β]
    (pks : List String) (st : List (DBRow β)) (v : DBRow β)
    (h1 : missingPK pks v = false)
    (h2 : st.countP (fun r => pkMatches pks v r) ≤ 1) :
    (insert_if_not_exists pks (insert_if_not_exists pks st [v]) [v]).countP
        (fun r => pkMatches pks v r) = 1
    ∧ insert_if_not_exists pks (insert_if_not_exists pks st [v]) [v]
        = insert_if_not_exists pks st [v]
    ∧ (∀ (st2 : List (DBRow β)) (batch : List (DBRow β)),
        insert_if_not_exists pks (insert_if_not_exists pks st2 batch) batch
          = insert_if_not_exists pks st2 batch)
    ∧ (∀ (st3 : List (DBRow β)) (batch : List (DBRow β)) (w : DBRow β),
        st3.countP (fun r => pkMatches pks w r) ≤ 1 →
        (insert_if_not_exists pks st3 batch).countP (fun r => pkMatches pks w r) ≤ 1) := by
  have hsingle : insert_if_not_exists pks st [v] = insertRow pks st v := rfl
  have hidem : insert_if_not_exists pks (insert_if_not_exists pks st [v]) [v]
      = insert_if_not_exists pks st [v] := insert_batch_idem pks [v] st
  refine ⟨?_, hidem, fun st2 batch => insert_batch_idem pks batch st2,
    fun st3 batch w h => insert_batch_countP_le pks batch w st3 h⟩
  rw [hidem, hsingle]
  unfold insertRow
  rw [if_neg (by simp [h1])]
  by_cases ha : st.any (fun r => pkMatches pks v r) = true
  · rw [if_pos ha]
    rw [List.any_eq_true] at ha
    obtain ⟨r, hr, hm⟩ := ha
    have hpos : 0 < st.countP (fun r => pkMatches pks v r) :=
      List.countP_pos_iff.mpr ⟨r, hr, hm⟩
    omega
  · rw [if_neg ha]
    have hzero : st.countP (fun r => pkMatches pks v r) = 0 := by
      rw [List.countP_eq_zero]
      intro r hr hm
      exact ha (List.any_eq_true.mpr ⟨r, hr, hm⟩)
    rw [List.countP_append, hzero]
    simp [List.countP_cons, pkMatches_self]

/-- Witness for `c1_insert_if_not_exists_idempotent`: a concrete work row
with a non-null key inserted twice into an empty `works` table. -/
theorem c1_insert_if_not_exists_idempotent_witness :
    missingPK ["work_id"] [("work_id", some "W1"), ("doi", (none : Option String))] = false
    ∧ ([] : List (DBRow String)).countP
        (fun r => pkMatches ["work_id"] [("work_id", some "W1"), ("doi", none)] r) ≤ 1
    ∧ (insert_if_not_exists ["work_id"]
        (insert_if_not_exists ["work_id"] []
          [[("work_id", some "W1"), ("doi", none)]])
        [[("work_id", some "W1"), ("doi", none)]]).countP
        (fun r => pkMatches ["work_id"] [("work_id", some "W1"), ("doi", none)] r) = 1 := by
  refine ⟨by decide, by decide, ?_⟩
  exact (c1_insert_if_not_exists_idempotent ["work_id"] []
    [("work_id", some "W1"), ("doi", none)] (by decide) (by decide)).1

/-- C6: rows with a null/missing primary-key component are skipped and have
no effect — inserting a batch is the same as inserting the batch with those
rows filtered out (so one bad row never aborts its siblings) — and a
skipped row alone leaves the state unchanged. -/
theorem c6_missing_pk_rows_skipped {β : Type} [DecidableEq β] (pks : List String)
    (st : List (DBRow β)) (batch : List (DBRow β)) :
    insert_if_not_exists pks st batch
      = insert_if_not_exists pks st (batch.filter (fun v => !missingPK pks v))
    ∧ (∀ v : DBRow β, missingPK pks v = true → insertRow pks st v = st) := by
  constructor
  · induction batch generalizing st with
    | nil => rfl
    | cons v rest ih =>
      by_cases hm : missingPK pks v = true
      · have hskip : insertRow pks st v = st := by unfold insertRow; simp [hm]
        calc insert_if_not_exists pks st (v :: rest)
            = insert_if_not_exists pks (insertRow pks st v) rest := rfl
          _ = insert_if_not_exists pks st rest := by rw [hskip]
          _ = insert_if_not_exists pks st (rest.filter (fun v => !missingPK pks v)) := ih st
          _ = insert_if_not_exists pks st ((v :: rest).filter (fun v => !missingPK pks v)) := by
              simp [List.filter_cons, hm]
      · calc insert_if_not_exists pks st (v :: rest)
            = insert_if_not_exists pks (insertRow pks st v) rest := rfl
          _ = insert_if_not_exists pks (insertRow pks st v)
                (rest.filter (fun v => !missingPK pks v)) := ih (insertRow pks st v)
          _ = insert_if_not_exists pks st ((v :: rest).filter (fun v => !missingPK pks v)) := by
              simp [List.filter_cons, hm]
              rfl
  · intro v hm
    unfold insertRow
    simp [hm]

/-- Witness for `c6_missing_pk_rows_skipped`: a row whose `work_id` is null
is skipped without touching the state. -/
theorem c6_missing_pk_rows_skipped_witness :
    missingPK ["work_id"] [("work_id", (none : Option String)), ("doi", some "d")] = true
    ∧ insertRow ["work_id"] ([[("work_id", some "W1")]] : List (DBRow String))
        [("work_id", none), ("doi", some "d")] = [[("work_id", some "W1")]] := by
  refine ⟨by decide, ?_⟩
  exact (c6_missing_pk_rows_skipped ["work_id"] [[("work_id", some "W1")]] []).2
    [("work_id", none), ("doi", some "d")] (by decide)

/-!
`DatabaseHandler.get_query_results` (src/database/db_handlers.py).

The statement's execution at the database is the `Except String ResultSet`
input: `.ok` models a successful `conn.execute(stmt)`, `.error` a raised
`SQLAlchemyError`.  The `try`/`except SQLAlchemyError` block catches only
database errors; the `ValueError` raised for an unsupported `return_format`
is not a `SQLAlchemyError` and therefore propagates to the caller, which the
outcome type records as `PyOutcome.valueError`.
-/

/-- A tabular result of `conn.execute`: ordered column names plus rows. -/
structure ResultSet where
  cols : List String
  rows : List (List Json)

/-- What `get_query_results` hands back on the normal path: a DataFrame
(`pd.DataFrame(result.fetchall(), columns=result.keys())`) or a list of dicts
(`result.mappings().all()`). -/
inductive QueryOut where
  | df (cols : List String) (rows : List (List Json)) : QueryOut
  | dicts (rows : List (List (String × Json))) : QueryOut

/-- Outcome of a call that may let a Python exception escape. -/
inductive PyOutcome (α : Type) where
  | ok (a : α) : PyOutcome α
  | valueError (msg : String) : PyOutcome α

/-- `DatabaseHandler.get_query_results`.  On a `SQLAlchemyError` the except
branch returns `pd.DataFrame()` when `return_format == 'df'` and `[]`
otherwise; on success the format is dispatched, and an unsupported format
raises `ValueError`, which is not caught. -/
def get_query_results (execResult : Except String ResultSet)
    (return_format : String) : PyOutcome QueryOut :=
  match execResult with
  | .ok result =>
    if return_format = "df" then .ok (.df result.cols result.rows)
    else if return_format = "dicts" then
      .ok (.dicts (result.rows.map (fun r => result.cols.zip r)))
    else .valueError "Invalid return_format. Choose 'dicts' or 'df'."
  | .error _ =>
    if return_format = "df" then .ok (.df [] []) else .ok (.dicts [])

/-- C7: when executing the statement fails at the database (for example a
query against a nonexistent table raising `SQLAlchemyError`), the error is
absorbed and an empty result set is returned — an empty DataFrame for
`return_format = "df"`, an empty list for `"dicts"` — instead of an
exception propagating to the caller. -/
theorem c7_query_failure_absorbed (e : String) :
    get_query_results (.error e) "df" = .ok (.df [] [])
    ∧ get_query_results (.error e) "dicts" = .ok (.dicts []) := by
  exact ⟨rfl, rfl⟩

/-- C10 counterexample: with a failing statement and an unsupported
`return_format`, the `SQLAlchemyError` is raised at `conn.execute` before the
format dispatch, so the except branch returns the empty list — no
`ValueError` reaches the caller, contrary to the claim's "for every
statement". -/
theorem c10_invalid_format_counterexample :
    get_query_results (.error "no such table") "csv" = .ok (.dicts []) := by
  rfl

/-- C10 (amended): for every statement whose execution succeeds, calling
`get_query_results` with a `return_format` other than `"df"` or `"dicts"`
raises a `ValueError` that propagates to the caller; only a failing
execution is absorbed into an empty result (and when both occur the
absorption wins, returning the empty list). -/
theorem c10_invalid_format_raises (result : ResultSet) (fmt : String)
    (h1 : fmt ≠ "df") (h2 : fmt ≠ "dicts") :
    get_query_results (.ok result) fmt
      = .valueError "Invalid return_format. Choose 'dicts' or 'df'."
    ∧ ∀ e : String, get_query_results (.error e) fmt = .ok (.dicts []) := by
  constructor
  · simp [get_query_results, h1, h2]
  · intro e
    simp [get_query_results, h1]

/-- Witness for `c10_invalid_format_raises` at `return_format = "csv"`. -/
theorem c10_invalid_format_raises_witness :
    ("csv" : String) ≠ "df" ∧ ("csv" : String) ≠ "dicts"
    ∧ get_query_results (.ok ⟨["a"], [[Json.num 1]]⟩) "csv"
        = .valueError "Invalid return_format. Choose 'dicts' or 'df'." := by
  refine ⟨by decide, by decide, ?_⟩
  exact (c10_invalid_format_raises ⟨["a"], [[Json.num 1]]⟩ "csv"
    (by decide) (by decide)).1

/-!
`OpenAlexWorksRetriever.retrieve_works` (src/database/openalex_works_retriever.py).

The configuration record collects the method's parameters together with the
two environment inputs the validations read (`os.path.exists` on the sink
path and `datetime.now().year`).  Python truthiness is preserved: `if
start_year and ...` skips the check when the bound is `None` **or zero**,
and `while cursor` exits when the next cursor is `None` **or the empty
string**.  The external API is modelled by the sequence `api` of
`meta.next_cursor` values: the response to the `i`-th fetch (0-based)
carries `next_cursor = api i` (every response has HTTP status 200, as in
the claims' fake-API setting; per-page record processing does not affect
control flow).  The result records the outcome (`.error e` when a
validation raised, before any fetch) and the list of cursor values actually
sent, in order.
-/

/-- Configuration of one `retrieve_works` invocation.  Fields in order:
`jsonl_filename`, whether a file already exists at that path, whether a
`db_handler` was provided, `start_year`, `end_year`, `per_page`,
`max_pages`, and the current calendar year. -/
structure RetrieverConfig where
  jsonl_filename : Option String
  file_exists : Bool
  has_db_handler : Bool
  start_year : Option Int
  end_year : Option Int
  per_page : Int
  max_pages : Option Nat
  current_year : Int

/-- Python truthiness of an optional string (`None` and `""` are falsy). -/
def truthyOptStr : Option String → Bool
  | none => false
  | some s => s != ""

/-- Python truthiness of an optional integer (`None` and `0` are falsy). -/
def truthyOptInt : Option Int → Bool
  | none => false
  | some n => n != 0

/-- The validations `retrieve_works` performs before the first network call,
in source order: missing sink and handler, pre-existing sink file, future
start year, future end year, inverted year bounds, oversized page size. -/
def validate_config (cfg : RetrieverConfig) : Except String Unit :=
  if !truthyOptStr cfg.jsonl_filename && !cfg.has_db_handler then
    .error "ValueError: At least one of jsonl_filename or db_handler must be provided to store the results."
  else if truthyOptStr cfg.jsonl_filename && cfg.file_exists then
    .error "FileExistsError: The file already exists. Please provide a different filename."
  else if truthyOptInt cfg.start_year && decide (cfg.start_year.getD 0 > cfg.current_year) then
    .error "ValueError: Start year cannot be greater than the current year."
  else if truthyOptInt cfg.end_year && decide (cfg.end_year.getD 0 > cfg.current_year) then
    .error "ValueError: End year cannot be greater than the current year."
  else if truthyOptInt cfg.start_year && truthyOptInt cfg.end_year
      && decide (cfg.start_year.getD 0 > cfg.end_year.getD 0) then
    .error "ValueError: Start year cannot be greater than end year."
  else if decide (cfg.per_page > 200) then
    .error "ValueError: The per_page parameter cannot be greater than 200."
  else .ok ()

/-- `if max_pages is not None and count >= max_pages`. -/
def capReached (max_pages : Option Nat) (count : Nat) : Bool :=
  match max_pages with
  | none => false
  | some m => decide (m ≤ count)

/-- Result of running the harvest loop: the cursor values sent (one per
fetch, in order) and whether the loop exited normally (`Done`); `done =
false` only when the step budget `fuel` ran out before the loop ended. -/
structure HarvestOutcome where
  fetches : List String
  done : Bool

/-- The `while cursor:` loop of `retrieve_works`: stop when the cursor is
falsy (`None` or `""`); break when the page cap is reached; otherwise fetch
with the current cursor, read `meta.next_cursor` from the response
(`api count`), increment the page counter and continue. -/
def harvestLoop (api : Nat → Option String) (max_pages : Option Nat) :
    Nat → Option String → Nat → HarvestOutcome
  | 0, _, _ => ⟨[], false⟩
  | _ + 1, none, _ => ⟨[], true⟩
  | fuel + 1, some c, count =>
    if c = "" then ⟨[], true⟩
    else if capReached max_pages count then ⟨[], true⟩
    else
      let rest := harvestLoop api max_pages fuel (api count) (count + 1)
      ⟨c :: rest.fetches, rest.done⟩

/-- `OpenAlexWorksRetriever.retrieve_works`: run the validations; on a
validation error the exception propagates with no fetch performed; otherwise
run the cursor loop starting from the sentinel cursor `"*"` with page counter
0.  The second component is the list of cursors actually fetched. -/
def retrieve_works (cfg : RetrieverConfig) (api : Nat → Option String)
    (fuel : Nat) : Except String HarvestOutcome × List String :=
  match validate_config cfg with
  | .error e => (.error e, [])
  | .ok _ =>
    let out := harvestLoop api cfg.max_pages fuel (some "*") 0
    (.ok out, out.fetches)

/-- The cursors returned by responses `count, count+1, ..., count+n-1`, as
the strings the loop would fetch with next. -/
def nextCursors (api : Nat → Option String) (count : Nat) : Nat → List String
  | 0 => []
  | n + 1 => (api count).getD "" :: nextCursors api (count + 1) n

theorem nextCursors_length (api : Nat → Option String) :
    ∀ n count, (nextCursors api count n).length = n := by
  intro n
  induction n with
  | zero => intro count; rfl
  | succ n ih => intro count; simp [nextCursors, ih]

theorem nextCursors_get? (api : Nat → Option String) :
    ∀ n count i, i < n →
      (nextCursors api count n).get? i = some ((api (count + i)).getD "") := by
  intro n
  induction n with
  | zero => intro count i h; omega
  | succ n ih =>
    intro count i h
    match i with
    | 0 => simp [nextCursors]
    | i + 1 =>
      have h' : i < n := by omega
      have := ih (count + 1) i h'
      simp only [nextCursors, List.get?_cons_succ]
      rw [this]
      have harith : count + 1 + i = count + (i + 1) := by omega
      rw [harith]

theorem truthyOptStr_getD {o : Option String} (h : truthyOptStr o = true) :
    some (o.getD "") = o := by
  cases o with
  | none => simp [truthyOptStr] at h
  | some s => rfl

/-- Running the loop with no page cap against an API whose next `n` responses
carry truthy cursors and whose `(n+1)`-th omits the cursor: exactly `n + 1`
fetches happen and the loop ends normally. -/
theorem harvestLoop_run (api : Nat → Option String) :
    ∀ (n count fuel : Nat) (c : String),
      (∀ i, i < n → truthyOptStr (api (count + i)) = true) →
      truthyOptStr (api (count + n)) = false →
      c ≠ "" → n + 2 ≤ fuel →
      harvestLoop api none fuel (some c) count
        = ⟨c :: nextCursors api count n, true⟩ := by
  intro n
  induction n with
  | zero =>
    intro count fuel c _ hend hc hfuel
    rw [Nat.add_zero] at hend
    obtain ⟨f, rfl⟩ : ∃ f, fuel = f + 1 := ⟨fuel - 1, by omega⟩
    simp only [harvestLoop, if_neg hc, capReached, if_neg (Bool.false_ne_true)]
    have hrest : harvestLoop api none f (api count) (count + 1) = ⟨[], true⟩ := by
      obtain ⟨f', rfl⟩ : ∃ f', f = f' + 1 := ⟨f - 1, by omega⟩
      rcases hnext : api count with _ | s
      · rfl
      · rw [hnext] at hend
        have hs : s = "" := by
          simpa [truthyOptStr] using hend
        simp [harvestLoop, hs]
    rw [hrest]
    rfl
  | succ n ih =>
    intro count fuel c hall hend hc hfuel
    obtain ⟨f, rfl⟩ : ∃ f, fuel = f + 1 := ⟨fuel - 1, by omega⟩
    have h0 : truthyOptStr (api count) = true := by
      have := hall 0 (by omega)
      rwa [Nat.add_zero] at this
    rcases hnext : api count with _ | s
    · rw [hnext] at h0; simp [truthyOptStr] at h0
    · have hs : s ≠ "" := by
        rw [hnext] at h0
        simpa [truthyOptStr] using h0
      have hrest : harvestLoop api none f (some s) (count + 1)
          = ⟨s :: nextCursors api (count + 1) n, true⟩ := by
        apply ih (count + 1) f s
        · intro i hi
          have := hall (i + 1) (by omega)
          have harith : count + (i + 1) = count + 1 + i := by omega
          rwa [harith] at this
        · have harith : count + (n + 1) = count + 1 + n := by omega
          rwa [harith] at hend
        · exact hs
        · omega
      simp only [harvestLoop, if_neg hc, capReached, if_neg (Bool.false_ne_true)]
      rw [hnext, hrest]
      simp [nextCursors, hnext]

/-- C2 counterexample: an empty-string `next_cursor` is non-null but falsy in
Python, so with an API that supplies `next_cursor = ""` on its first response
and omits it on the second (the claim's case N = 1), the harvester issues
only one fetch, not the claimed N + 1 = 2.  The configuration
`⟨some "works.jsonl", false, true, none, none, 200, none, 2025⟩` is valid and
has no page cap. -/
theorem c2_empty_cursor_counterexample :
    validate_config ⟨some "works.jsonl", false, true, none, none, 200, none, 2025⟩ = .ok ()
    ∧ (fun i => if i = 0 then some "" else none : Nat → Option String) 0 = some ""
    ∧ (fun i => if i = 0 then some "" else none : Nat → Option String) 1 = none
    ∧ retrieve_works ⟨some "works.jsonl", false, true, none, none, 200, none, 2025⟩
        (fun i => if i = 0 then some "" else none) 3
        = (.ok ⟨["*"], true⟩, ["*"])
    ∧ (["*"] : List String).length = 1 := by
  exact ⟨rfl, rfl, rfl, rfl, rfl⟩

/-- C2 (amended): if the API supplies a truthy (non-null **and non-empty**)
`meta.next_cursor` on each of the first N responses and omits it on the
(N+1)-th, then `retrieve_works` with a valid configuration and no page cap
issues exactly N + 1 fetches — the first with cursor `"*"`, each subsequent
one with the previously returned `next_cursor` — and terminates normally
(`Done`). -/
theorem c2_pagination_termination (N : Nat) (api : Nat → Option String)
    (cfg : RetrieverConfig) (fuel : Nat)
    (hapi : ∀ i, i < N → truthyOptStr (api i) = true)
    (hend : api N = none)
    (hcfg : validate_config cfg = .ok ())
    (hcap : cfg.max_pages = none)
    (hfuel : N + 2 ≤ fuel) :
    ∃ fs : List String,
      retrieve_works cfg api fuel = (.ok ⟨fs, true⟩, fs)
      ∧ fs.length = N + 1
      ∧ fs.get? 0 = some "*"
      ∧ ∀ i, i < N → fs.get? (i + 1) = api i := by
  have hrun : harvestLoop api none fuel (some "*") 0
      = ⟨"*" :: nextCursors api 0 N, true⟩ := by
    apply harvestLoop_run api N 0 fuel "*"
    · intro i hi
      rw [Nat.zero_add]
      exact hapi i hi
    · rw [Nat.zero_add, hend]; rfl
    · decide
    · exact hfuel
  refine ⟨"*" :: nextCursors api 0 N, ?_, ?_, rfl, ?_⟩
  · unfold retrieve_works
    rw [hcfg, hcap, hrun]
  · simp [nextCursors_length]
  · intro i hi
    have hget := nextCursors_get? api N 0 i hi
    rw [Nat.zero_add] at hget
    simp only [List.get?_cons_succ]
    rw [hget]
    exact truthyOptStr_getD (hapi i hi)

/-- Two truthy cursors then end-of-stream: the fake API for the witness. -/
def apiTwoPages : Nat → Option String :=
  fun i => if i = 0 then some "cursorA" else if i = 1 then some "cursorB" else none

/-- Witness for `c2_pagination_termination` with N = 2 pages of cursors. -/
theorem c2_pagination_termination_witness :
    (∀ i, i < 2 → truthyOptStr (apiTwoPages i) = true)
    ∧ apiTwoPages 2 = none
    ∧ validate_config ⟨some "works.jsonl", false, true, none, none, 200, none, 2025⟩ = .ok ()
    ∧ (⟨some "works.jsonl", false, true, none, none, 200, none, 2025⟩ : RetrieverConfig).max_pages = none
    ∧ ∃ fs : List String,
        retrieve_works ⟨some "works.jsonl", false, true, none, none, 200, none, 2025⟩
          apiTwoPages 4 = (.ok ⟨fs, true⟩, fs)
        ∧ fs.length = 3
        ∧ fs.get? 0 = some "*"
        ∧ ∀ i, i < 2 → fs.get? (i + 1) = apiTwoPages i := by
  refine ⟨by decide, rfl, rfl, rfl, ?_⟩
  exact c2_pagination_termination 2 apiTwoPages
    ⟨some "works.jsonl", false, true, none, none, 200, none, 2025⟩ 4
    (by decide) rfl rfl rfl (by decide)

/-- The disjunction of the configuration faults that make the validations
raise, exactly as the source tests them (Python truthiness included: a year
bound of 0 is falsy, so the year checks skip it). -/
def invalidConfig (cfg : RetrieverConfig) : Bool :=
  (!truthyOptStr cfg.jsonl_filename && !cfg.has_db_handler)
  || (truthyOptStr cfg.jsonl_filename && cfg.file_exists)
  || (truthyOptInt cfg.start_year && decide (cfg.start_year.getD 0 > cfg.current_year))
  || (truthyOptInt cfg.end_year && decide (cfg.end_year.getD 0 > cfg.current_year))
  || (truthyOptInt cfg.start_year && truthyOptInt cfg.end_year
      && decide (cfg.start_year.getD 0 > cfg.end_year.getD 0))
  || decide (cfg.per_page > 200)

theorem validate_config_ok_iff (cfg : RetrieverConfig) :
    validate_config cfg = .ok () ↔ invalidConfig cfg = false := by
  unfold validate_config invalidConfig
  split_ifs with h1 h2 h3 h4 h5 h6 <;> simp_all

/-- C9 counterexample: with `start_year = 1 > end_year = 0` (both provided)
the claim demands a configuration error before any fetch, but `if start_year
and end_year and start_year > end_year` skips the inverted-bounds check
because the year 0 is falsy in Python — `retrieve_works` raises nothing and
performs a fetch. -/
theorem c9_year_zero_counterexample :
    (⟨some "out.jsonl", false, false, some 1, some 0, 200, none, 2025⟩
        : RetrieverConfig).start_year.getD 0
      > (⟨some "out.jsonl", false, false, some 1, some 0, 200, none, 2025⟩
        : RetrieverConfig).end_year.getD 0
    ∧ retrieve_works ⟨some "out.jsonl", false, false, some 1, some 0, 200, none, 2025⟩
        (fun _ => none) 2 = (.ok ⟨["*"], true⟩, ["*"]) := by
  exact ⟨by decide, rfl⟩

/-- C9 (amended): `retrieve_works` raises a configuration error synchronously
and performs no fetch exactly when one of the source's validation faults
holds — missing sink and handler, pre-existing sink file, a non-zero year
bound above the current year, non-zero inverted year bounds, or
`per_page > 200` (a year bound of 0 counts as absent, by Python truthiness);
on a fault-free configuration no error is raised and the cursor loop runs. -/
theorem c9_config_errors_before_fetch (cfg : RetrieverConfig)
    (api : Nat → Option String) (fuel : Nat) :
    (invalidConfig cfg = true → ∃ e, retrieve_works cfg api fuel = (.error e, []))
    ∧ (invalidConfig cfg = false →
        ∃ out, retrieve_works cfg api fuel = (.ok out, out.fetches)) := by
  constructor
  · intro hbad
    rcases hv : validate_config cfg with e | u
    · exact ⟨e, by unfold retrieve_works; rw [hv]⟩
    · cases u
      rw [validate_config_ok_iff] at hv
      rw [hv] at hbad
      exact absurd hbad (by decide)
  · intro hgood
    have hv : validate_config cfg = .ok () := (validate_config_ok_iff cfg).mpr hgood
    exact ⟨harvestLoop api cfg.max_pages fuel (some "*") 0,
      by unfold retrieve_works; rw [hv]⟩

/-- Witness for `c9_config_errors_before_fetch`: `per_page = 201` raises with
no fetch; the analogous valid configuration proceeds to the loop. -/
theorem c9_config_errors_before_fetch_witness :
    invalidConfig ⟨some "out.jsonl", false, false, none, none, 201, none, 2025⟩ = true
    ∧ (∃ e, retrieve_works ⟨some "out.jsonl", false, false, none, none, 201, none, 2025⟩
        (fun _ => none) 2 = (.error e, []))
    ∧ invalidConfig ⟨some "out.jsonl", false, false, none, none, 200, none, 2025⟩ = false
    ∧ (∃ out, retrieve_works ⟨some "out.jsonl", false, false, none, none, 200, none, 2025⟩
        (fun _ => none) 2 = (.ok out, out.fetches)) := by
  refine ⟨by decide, ?_, by decide, ?_⟩
  · exact (c9_config_errors_before_fetch
      ⟨some "out.jsonl", false, false, none, none, 201, none, 2025⟩
      (fun _ => none) 2).1 (by decide)
  · exact (c9_config_errors_before_fetch
      ⟨some "out.jsonl", false, false, none, none, 200, none, 2025⟩
      (fun _ => none) 2).2 (by decide)

/-!
`OpenAlexWorkParser` (src/database/openalex_work_parser.py).

Each `get_table_*` method is embedded in `Except String`, with Python's
`dict.get` / iteration / truthiness semantics as above.  A produced row is
an ordered dict `PyRow`.  The field reads follow the source line by line,
in Python's evaluation order (dict literals evaluate their values in key
order, `get_all_tables` builds its dict in the source's fixed insertion
order, and `self._source` is the expression computed in `__init__`).
-/

abbrev PyRow := List (String × Json)

@[simp] theorem exceptBind_ok {α β : Type} (a : α) (f : α → Except String β) :
    (Except.ok a >>= f : Except String β) = f a := rfl

@[simp] theorem exceptBind_err {α β : Type} (e : String) (f : α → Except String β) :
    (Except.error e >>= f : Except String β) = .error e := rfl

/-- `(fs.lookup k).getD .null`: the JSON value of a dict field, `null` when
absent (what `pyGet` returns on a dict). -/
def lookupJ (fs : List (String × Json)) (k : String) : Json :=
  (fs.lookup k).getD .null

@[simp] theorem pyGetD_obj (fs : List (String × Json)) (k : String) (d : Json) :
    pyGetD (.obj fs) k d = .ok ((fs.lookup k).getD d) := rfl

@[simp] theorem pyGet_obj (fs : List (String × Json)) (k : String) :
    pyGet (.obj fs) k = .ok (lookupJ fs k) := rfl

@[simp] theorem pyIter_arr (xs : List Json) : pyIter (.arr xs) = .ok xs := rfl

@[simp] theorem orEmptyObj_null : orEmptyObj .null = .obj [] := rfl

@[simp] theorem orEmptyObj_obj (fs : List (String × Json)) :
    orEmptyObj (.obj fs) = .obj fs := by
  cases fs <;> simp [orEmptyObj, truthy]

/-- A monadic map over `Except String`, mirroring a Python `for` loop that
appends one result per element and propagates the first raised exception. -/
def mapME {α β : Type} (f : α → Except String β) : List α → Except String (List β)
  | [] => .ok []
  | x :: xs => do
    let y ← f x
    let ys ← mapME f xs
    pure (y :: ys)

/-- `self._source = ((json_data.get("primary_location") or {}).get("source") or {})`. -/
def workSource (json_data : Json) : Except String Json := do
  let pl ← pyGet json_data "primary_location"
  let srcRaw ← pyGet (orEmptyObj pl) "source"
  pure (orEmptyObj srcRaw)

/-- `OpenAlexWorkParser.get_table_works` (the `source` argument is
`self._source`). -/
def get_table_works (json_data source : Json) : Except String PyRow := do
  let idv ← pyGet json_data "id"
  let work_id ← _clean_id idv
  let doiv ← pyGet json_data "doi"
  let doi ← _clean_id doiv
  let work_title ← pyGet json_data "title"
  let publication_year ← pyGet json_data "publication_year"
  let publication_date ← pyGet json_data "publication_date"
  let work_type ← pyGet json_data "type"
  let cited_by_count ← pyGet json_data "cited_by_count"
  let psRaw ← pyGet source "id"
  let primary_source_id ← _clean_id psRaw
  let oa1 ← pyGetD json_data "open_access" (.obj [])
  let is_oa ← pyGet oa1 "is_oa"
  let oa2 ← pyGetD json_data "open_access" (.obj [])
  let oa_status ← pyGet oa2 "oa_status"
  let referenced_works_count ← pyGet json_data "referenced_works_count"
  let indexed_in ← pyGetD json_data "indexed_in" (.arr [])
  pure [("work_id", work_id), ("doi", doi), ("work_title", work_title),
    ("publication_year", publication_year), ("publication_date", publication_date),
    ("work_type", work_type), ("cited_by_count", cited_by_count),
    ("primary_source_id", primary_source_id), ("is_oa", is_oa),
    ("oa_status", oa_status), ("referenced_works_count", referenced_works_count),
    ("indexed_in", indexed_in)]

/-- `OpenAlexWorkParser.get_table_primary_source` (on `self._source`). -/
def get_table_primary_source (source : Json) : Except String PyRow := do
  let idv ← pyGet source "id"
  let source_id ← _clean_id idv
  let source_name ← pyGet source "display_name"
  let source_issn_l ← pyGet source "issn_l"
  let issn ← pyGetD source "issn" (.arr [])
  let is_oa ← pyGet source "is_oa"
  let hoRaw ← pyGet source "host_organization"
  let host_organization_id ← _clean_id hoRaw
  let host_organization_name ← pyGet source "host_organization_name"
  let stype ← pyGet source "type"
  pure [("source_id", source_id), ("source_name", source_name),
    ("source_issn_l", source_issn_l), ("issn", issn), ("is_oa", is_oa),
    ("host_organization_id", host_organization_id),
    ("host_organization_name", host_organization_name), ("type", stype)]

/-- `self._clean_id(institution.get("id"))`, the body of the list
comprehension building `institution_id`. -/
def institutionIdOf (institution : Json) : Except String Json := do
  let iidRaw ← pyGet institution "id"
  _clean_id iidRaw

/-- One iteration of the loop in `get_table_authorships`. -/
def authorshipRow (json_data authorship : Json) : Except String PyRow := do
  let idv ← pyGet json_data "id"
  let work_id ← _clean_id idv
  let author ← pyGetD authorship "author" (.obj [])
  let aidRaw ← pyGet author "id"
  let author_id ← _clean_id aidRaw
  let author_position ← pyGet authorship "author_position"
  let is_corresponding ← pyGet authorship "is_corresponding"
  let instsRaw ← pyGetD authorship "institutions" (.arr [])
  let insts ← pyIter instsRaw
  let institution_id ← mapME institutionIdOf insts
  pure [("work_id", work_id), ("author_id", author_id),
    ("author_position", author_position), ("is_corresponding", is_corresponding),
    ("institution_id", Json.arr institution_id)]

/-- `OpenAlexWorkParser.get_table_authorships`. -/
def get_table_authorships (json_data : Json) : Except String (List PyRow) := do
  let aRaw ← pyGetD json_data "authorships" (.arr [])
  let items ← pyIter aRaw
  mapME (authorshipRow json_data) items

/-- One iteration of the loop in `get_table_authors`. -/
def authorRow (authorship : Json) : Except String PyRow := do
  let author ← pyGetD authorship "author" (.obj [])
  let aidRaw ← pyGet author "id"
  let author_id ← _clean_id aidRaw
  let author_name ← pyGet author "display_name"
  let orcidRaw ← pyGet author "orcid"
  let orcid ← _clean_id orcidRaw
  pure [("author_id", author_id), ("author_name", author_name), ("orcid", orcid)]

/-- `OpenAlexWorkParser.get_table_authors`. -/
def get_table_authors (json_data : Json) : Except String (List PyRow) := do
  let aRaw ← pyGetD json_data "authorships" (.arr [])
  let items ← pyIter aRaw
  mapME authorRow items

/-- One iteration of the inner loop in `get_table_institutions`. -/
def institutionRow (institution : Json) : Except String PyRow := do
  let iidRaw ← pyGet institution "id"
  let institution_id ← _clean_id iidRaw
  let institution_name ← pyGet institution "display_name"
  let rorRaw ← pyGet institution "ror"
  let ror ← _clean_id rorRaw
  let itype ← pyGet institution "type"
  let country_code ← pyGet institution "country_code"
  pure [("institution_id", institution_id), ("institution_name", institution_name),
    ("ror", ror), ("type", itype), ("country_code", country_code)]

/-- The inner loop of `get_table_institutions`: the institution rows of one
authorship (`for institution in authorship.get("institutions", [])`). -/
def institutionRowsOfAuthorship (authorship : Json) : Except String (List PyRow) := do
  let instsRaw ← pyGetD authorship "institutions" (.arr [])
  let insts ← pyIter instsRaw
  mapME institutionRow insts

/-- `OpenAlexWorkParser.get_table_institutions`: nested loops over the
authorships and each authorship's institutions, producing a flattened list. -/
def get_table_institutions (json_data : Json) : Except String (List PyRow) := do
  let aRaw ← pyGetD json_data "authorships" (.arr [])
  let items ← pyIter aRaw
  let nested ← mapME institutionRowsOfAuthorship items
  pure nested.flatten

/-- One iteration of the loop in `get_table_cited_by_year`. -/
def citedRow (json_data count : Json) : Except String PyRow := do
  let idv ← pyGet json_data "id"
  let work_id ← _clean_id idv
  let year ← pyGet count "year"
  let cited_count ← pyGet count "cited_by_count"
  pure [("work_id", work_id), ("year", year), ("cited_count", cited_count)]

/-- `OpenAlexWorkParser.get_table_cited_by_year`. -/
def get_table_cited_by_year (json_data : Json) : Except String (List PyRow) := do
  let cRaw ← pyGetD json_data "counts_by_year" (.arr [])
  let items ← pyIter cRaw
  mapME (citedRow json_data) items

/-- One iteration of the loop in `get_table_topics_by_work`. -/
def topicByWorkRow (json_data topic : Json) : Except String PyRow := do
  let idv ← pyGet json_data "id"
  let work_id ← _clean_id idv
  let tidRaw ← pyGet topic "id"
  let topic_id ← _clean_id tidRaw
  let score ← pyGet topic "score"
  pure [("work_id", work_id), ("topic_id", topic_id), ("score", score)]

/-- `OpenAlexWorkParser.get_table_topics_by_work`. -/
def get_table_topics_by_work (json_data : Json) : Except String (List PyRow) := do
  let tRaw ← pyGetD json_data "topics" (.arr [])
  let items ← pyIter tRaw
  mapME (topicByWorkRow json_data) items

/-- One iteration of the loop in `get_table_topics`. -/
def topicRow (topic : Json) : Except String PyRow := do
  let tidRaw ← pyGet topic "id"
  let topic_id ← _clean_id tidRaw
  let topic_name ← pyGet topic "display_name"
  let sub1 ← pyGetD topic "subfield" (.obj [])
  let sidRaw ← pyGet sub1 "id"
  let subfield_id ← _clean_id sidRaw
  let sub2 ← pyGetD topic "subfield" (.obj [])
  let subfield_name ← pyGet sub2 "display_name"
  let fld1 ← pyGetD topic "field" (.obj [])
  let fidRaw ← pyGet fld1 "id"
  let field_id ← _clean_id fidRaw
  let fld2 ← pyGetD topic "field" (.obj [])
  let field_name ← pyGet fld2 "display_name"
  let dom1 ← pyGetD topic "domain" (.obj [])
  let didRaw ← pyGet dom1 "id"
  let domain_id ← _clean_id didRaw
  let dom2 ← pyGetD topic "domain" (.obj [])
  let domain_name ← pyGet dom2 "display_name"
  pure [("topic_id", topic_id), ("topic_name", topic_name),
    ("subfield_id", subfield_id), ("subfield_name", subfield_name),
    ("field_id", field_id), ("field_name", field_name),
    ("domain_id", domain_id), ("domain_name", domain_name)]

/-- `OpenAlexWorkParser.get_table_topics`. -/
def get_table_topics (json_data : Json) : Except String (List PyRow) := do
  let tRaw ← pyGetD json_data "topics" (.arr [])
  let items ← pyIter tRaw
  mapME topicRow items

/-- The dict returned by `get_all_tables`, one field per destination table,
in the source's fixed insertion order. -/
structure AllTables where
  primary_source : PyRow
  authors : List PyRow
  institutions : List PyRow
  topics : List PyRow
  works : PyRow
  authorships : List PyRow
  cited_by_year : List PyRow
  topics_by_work : List PyRow

/-- `OpenAlexWorkParser.get_all_tables`: `__init__`'s `self._source`
computation followed by the eight extractions, in the order the source's
dict literal evaluates them. -/
def get_all_tables (json_data : Json) : Except String AllTables := do
  let source ← workSource json_data
  let primary_source ← get_table_primary_source source
  let authors ← get_table_authors json_data
  let institutions ← get_table_institutions json_data
  let topics ← get_table_topics json_data
  let works ← get_table_works json_data source
  let authorships ← get_table_authorships json_data
  let cited_by_year ← get_table_cited_by_year json_data
  let topics_by_work ← get_table_topics_by_work json_data
  pure ⟨primary_source, authors, institutions, topics, works, authorships,
    cited_by_year, topics_by_work⟩

/-- The rows a table name contributes when `process_and_store_page` feeds
`tables.get(table_name)` to `insert_if_not_exists` (which wraps the single
dicts of `works` and `primary_source` into one-element lists). -/
def tableRows (t : AllTables) : String → List PyRow
  | "primary_source" => [t.primary_source]
  | "authors" => t.authors
  | "institutions" => t.institutions
  | "topics" => t.topics
  | "works" => [t.works]
  | "authorships" => t.authorships
  | "cited_by_year" => t.cited_by_year
  | "topics_by_work" => t.topics_by_work
  | _ => []

/-!
Well-shapedness of a raw work record: exactly the conditions under which the
parser's field accesses cannot raise, while still letting the
`primary_location`/`source` chain be missing **or null** (the source handles
both, via `or {}`) and letting an authorship's `author`, an institution list,
a topic's `subfield`/`field`/`domain`, and `open_access` be **missing**
(their `.get(k, default)` defaults only apply to absent keys; a stored JSON
`null` would make the subsequent `.get` raise `AttributeError`).
-/

/-- The values `_clean_id` accepts without raising: strings and falsy values. -/
def cleanOk : Json → Bool
  | .str _ => true
  | v => !truthy v

/-- The field is either absent or bound to a dict (a stored `null` would make
the subsequent `.get` on it raise). -/
def fieldObjOrMissing (fs : List (String × Json)) (k : String) : Bool :=
  match fs.lookup k with
  | none => true
  | some (.obj _) => true
  | some _ => false

/-- The value of a field known to be a dict, `null` for any other case. -/
def objField (j : Json) (k : String) : Json :=
  match j with
  | .obj fs => lookupJ fs k
  | _ => .null

/-- `true` iff the value is a dict. -/
def isObjJ : Json → Bool
  | .obj _ => true
  | _ => false

/-- An institution entry: a dict whose `id` and `ror` are cleanable. -/
def wellShapedInstitution : Json → Bool
  | .obj fs => cleanOk (lookupJ fs "id") && cleanOk (lookupJ fs "ror")
  | _ => false

/-- A field that the parser iterates with a `.get(k, [])` default: absent,
or a list all of whose elements satisfy `p` (a stored non-list, including
`null`, would make the `for` loop raise). -/
def arrFieldOk (fs : List (String × Json)) (k : String) (p : Json → Bool) : Bool :=
  match fs.lookup k with
  | none => true
  | some (.arr xs) => xs.all p
  | some _ => false

/-- The element list of such a field (empty when absent or not a list). -/
def arrFieldOf (fs : List (String × Json)) (k : String) : List Json :=
  match fs.lookup k with
  | some (.arr xs) => xs
  | _ => []

/-- The `institutions` field of one authorship: absent, or a list of
well-shaped institution dicts. -/
def institutionsFieldOk (fs : List (String × Json)) : Bool :=
  arrFieldOk fs "institutions" wellShapedInstitution

/-- An authorship entry: a dict whose `author` is absent or a dict with
cleanable `id`/`orcid`, and whose `institutions` are well shaped. -/
def wellShapedAuthorship : Json → Bool
  | .obj fs =>
    fieldObjOrMissing fs "author"
    && cleanOk (objField ((fs.lookup "author").getD (.obj [])) "id")
    && cleanOk (objField ((fs.lookup "author").getD (.obj [])) "orcid")
    && institutionsFieldOk fs
  | _ => false

/-- A topic's `subfield`/`field`/`domain`: absent or a dict with a cleanable
`id`. -/
def subObjOk (fs : List (String × Json)) (k : String) : Bool :=
  fieldObjOrMissing fs k
  && cleanOk (objField ((fs.lookup k).getD (.obj [])) "id")

/-- A topic assignment: a dict with cleanable `id` and well-shaped
`subfield`/`field`/`domain`. -/
def wellShapedTopic : Json → Bool
  | .obj fs =>
    cleanOk (lookupJ fs "id")
    && subObjOk fs "subfield" && subObjOk fs "field" && subObjOk fs "domain"
  | _ => false

/-- The `source` field of a `primary_location` dict: missing, null, or a
dict whose `id` and `host_organization` are cleanable. -/
def sourceFieldOk (pfs : List (String × Json)) : Bool :=
  match pfs.lookup "source" with
  | none => true
  | some .null => true
  | some (.obj sfs) =>
    cleanOk (lookupJ sfs "id") && cleanOk (lookupJ sfs "host_organization")
  | some _ => false

/-- The `primary_location`/`source` chain: each level may be missing, null or
a dict; when the source dict is there, its `id` and `host_organization` are
cleanable. -/
def plSourceOk (fs : List (String × Json)) : Bool :=
  match fs.lookup "primary_location" with
  | none => true
  | some .null => true
  | some (.obj pfs) => sourceFieldOk pfs
  | some _ => false

/-- The `authorships` field: absent or a list of well-shaped authorships. -/
def authorshipsFieldOk (fs : List (String × Json)) : Bool :=
  arrFieldOk fs "authorships" wellShapedAuthorship

/-- The `counts_by_year` field: absent or a list of dicts. -/
def countsFieldOk (fs : List (String × Json)) : Bool :=
  arrFieldOk fs "counts_by_year" isObjJ

/-- The `topics` field: absent or a list of well-shaped topic dicts. -/
def topicsFieldOk (fs : List (String × Json)) : Bool :=
  arrFieldOk fs "topics" wellShapedTopic

/-- A well-shaped raw work record.  The nested sub-objects the parser
tolerates being absent are allowed to be absent; everything the parser
reads without a guard must have the type its access requires. -/
def wellShapedWork : Json → Bool
  | .obj fs =>
    plSourceOk fs
    && cleanOk (lookupJ fs "id")
    && cleanOk (lookupJ fs "doi")
    && fieldObjOrMissing fs "open_access"
    && authorshipsFieldOk fs
    && countsFieldOk fs
    && topicsFieldOk fs
  | _ => false

/-- The authorship entries of a record (empty when absent or not a record). -/
def authorshipsOf : Json → List Json
  | .obj fs => arrFieldOf fs "authorships"
  | _ => []

/-- The institution entries of one authorship (empty when absent). -/
def institutionsOf : Json → List Json
  | .obj fs => arrFieldOf fs "institutions"
  | _ => []

/-- The counts-by-year entries of a record (empty when absent). -/
def countsOf : Json → List Json
  | .obj fs => arrFieldOf fs "counts_by_year"
  | _ => []

/-- The topic assignments of a record (empty when absent). -/
def topicsOf : Json → List Json
  | .obj fs => arrFieldOf fs "topics"
  | _ => []

/-- Whether a modelled Python computation raised no exception. -/
def isOkE {α : Type} : Except String α → Bool
  | .ok _ => true
  | .error _ => false

@[simp] theorem isOkE_ok {α : Type} (a : α) : isOkE (Except.ok a) = true := rfl

@[simp] theorem isOkE_err {α : Type} (e : String) :
    isOkE (Except.error e : Except String α) = false := rfl

theorem isOkE_exists {α : Type} {m : Except String α} (h : isOkE m = true) :
    ∃ a, m = .ok a := by
  cases m with
  | ok a => exact ⟨a, rfl⟩
  | error e => simp at h

theorem _clean_id_ok : ∀ {v : Json}, cleanOk v = true → ∃ r, _clean_id v = .ok r := by
  intro v h
  cases v with
  | str s =>
    by_cases hs : truthy (Json.str s) = true
    · exact ⟨.str (cleanCore s), by simp [_clean_id, hs]⟩
    · exact ⟨.null, by simp [_clean_id, hs]⟩
  | null => exact ⟨.null, rfl⟩
  | bool b =>
    have ht : truthy (Json.bool b) = false := by simpa [cleanOk] using h
    exact ⟨.null, by simp [_clean_id, ht]⟩
  | num n =>
    have ht : truthy (Json.num n) = false := by simpa [cleanOk] using h
    exact ⟨.null, by simp [_clean_id, ht]⟩
  | arr xs =>
    have ht : truthy (Json.arr xs) = false := by simpa [cleanOk] using h
    exact ⟨.null, by simp [_clean_id, ht]⟩
  | obj fs =>
    have ht : truthy (Json.obj fs) = false := by simpa [cleanOk] using h
    exact ⟨.null, by simp [_clean_id, ht]⟩

@[simp] theorem mapME_nil {α β : Type} (f : α → Except String β) :
    mapME f [] = .ok [] := rfl

theorem mapME_cons {α β : Type} (f : α → Except String β) (x : α) (xs : List α) :
    mapME f (x :: xs)
      = (f x >>= fun y => mapME f xs >>= fun ys => .ok (y :: ys)) := rfl

theorem mapME_ok_of_forall {α β : Type} (P : α → β → Prop) {f : α → Except String β} :
    ∀ {l : List α}, (∀ x ∈ l, ∃ y, f x = .ok y ∧ P x y) →
      ∃ ys, mapME f l = .ok ys ∧ List.Forall₂ P l ys := by
  intro l
  induction l with
  | nil => exact fun _ => ⟨[], rfl, List.Forall₂.nil⟩
  | cons x xs ih =>
    intro h
    obtain ⟨y, hy, hp⟩ := h x (List.mem_cons_self x xs)
    obtain ⟨ys, hys, hf⟩ := ih (fun a ha => h a (List.mem_cons_of_mem x ha))
    refine ⟨y :: ys, ?_, List.Forall₂.cons hp hf⟩
    rw [mapME_cons, hy, exceptBind_ok, hys, exceptBind_ok]

theorem mapME_ok_length {α β : Type} {f : α → Except String β} {l : List α}
    (h : ∀ x ∈ l, ∃ y, f x = .ok y) :
    ∃ ys, mapME f l = .ok ys ∧ ys.length = l.length := by
  obtain ⟨ys, hys, hf⟩ := mapME_ok_of_forall (fun _ _ => True)
    (fun x hx => by
      obtain ⟨y, hy⟩ := h x hx
      exact ⟨y, hy, trivial⟩)
  exact ⟨ys, hys, hf.length_eq.symm⟩

theorem forall₂_map_eq {α β γ : Type} {q : β → γ} {g : α → γ} :
    ∀ {l : List α} {ys : List β}, List.Forall₂ (fun x y => q y = g x) l ys →
      ys.map q = l.map g := by
  intro l ys h
  induction h with
  | nil => rfl
  | cons h1 _ ih => simp [List.map_cons, h1, ih]

theorem flatten_length_sum {α : Type} :
    ∀ L : List (List α), L.flatten.length = (L.map List.length).sum := by
  intro L
  induction L with
  | nil => rfl
  | cons x xs ih => simp [ih]

theorem fieldObjOrMissing_obj {fs : List (String × Json)} {k : String}
    (h : fieldObjOrMissing fs k = true) :
    ∃ ofs, (fs.lookup k).getD (.obj []) = .obj ofs := by
  unfold fieldObjOrMissing at h
  rcases hl : fs.lookup k with _ | v
  · exact ⟨[], by simp [hl]⟩
  · rw [hl] at h
    cases v with
    | obj o => exact ⟨o, by simp [hl]⟩
    | null => simp at h
    | bool b => simp at h
    | num n => simp at h
    | str s => simp at h
    | arr a => simp at h

theorem arrFieldOk_spec {fs : List (String × Json)} {k : String} {p : Json → Bool}
    (h : arrFieldOk fs k p = true) :
    (fs.lookup k).getD (.arr []) = .arr (arrFieldOf fs k)
    ∧ ∀ a ∈ arrFieldOf fs k, p a = true := by
  unfold arrFieldOk at h
  unfold arrFieldOf
  rcases hl : fs.lookup k with _ | v
  · rw [hl] at h
    constructor
    · simp [hl]
    · intro a ha
      simp [hl] at ha
  · rw [hl] at h
    cases v with
    | arr xs =>
      constructor
      · simp [hl]
      · intro a ha
        simp only [hl] at ha
        rw [List.all_eq_true] at h
        exact h a ha
    | null => simp at h
    | bool b => simp at h
    | num n => simp at h
    | str s => simp at h
    | obj o => simp at h

theorem workSource_ok {fs : List (String × Json)} (h : plSourceOk fs = true) :
    ∃ sfs, workSource (.obj fs) = .ok (.obj sfs)
      ∧ cleanOk (lookupJ sfs "id") = true
      ∧ cleanOk (lookupJ sfs "host_organization") = true := by
  unfold plSourceOk at h
  rcases hpl : fs.lookup "primary_location" with _ | pl
  · exact ⟨[], by simp [workSource, pyGet, hpl, lookupJ], rfl, rfl⟩
  · rw [hpl] at h
    cases pl with
    | null => exact ⟨[], by simp [workSource, pyGet, hpl, lookupJ], rfl, rfl⟩
    | obj pfs =>
      have h' : sourceFieldOk pfs = true := h
      unfold sourceFieldOk at h'
      rcases hsrc : pfs.lookup "source" with _ | src
      · exact ⟨[], by simp [workSource, pyGet, hpl, hsrc, lookupJ], rfl, rfl⟩
      · rw [hsrc] at h'
        cases src with
        | null => exact ⟨[], by simp [workSource, pyGet, hpl, hsrc, lookupJ], rfl, rfl⟩
        | obj sfs =>
          rw [Bool.and_eq_true] at h'
          exact ⟨sfs, by simp [workSource, pyGet, hpl, hsrc, lookupJ], h'.1, h'.2⟩
        | bool b => simp at h'
        | num n => simp at h'
        | str s => simp at h'
        | arr a => simp at h'
    | bool b => simp at h
    | num n => simp at h
    | str s => simp at h
    | arr a => simp at h

theorem get_table_primary_source_ok {sfs : List (String × Json)}
    (hid : cleanOk (lookupJ sfs "id") = true)
    (hho : cleanOk (lookupJ sfs "host_organization") = true) :
    ∃ r, get_table_primary_source (.obj sfs) = .ok r := by
  obtain ⟨a, ha⟩ := _clean_id_ok hid
  obtain ⟨b, hb⟩ := _clean_id_ok hho
  refine isOkE_exists ?_
  simp [get_table_primary_source, ha, hb]

theorem get_table_works_ok {fs sfs : List (String × Json)}
    (hid : cleanOk (lookupJ fs "id") = true)
    (hdoi : cleanOk (lookupJ fs "doi") = true)
    (hoa : fieldObjOrMissing fs "open_access" = true)
    (hsid : cleanOk (lookupJ sfs "id") = true) :
    ∃ r, get_table_works (.obj fs) (.obj sfs) = .ok r := by
  obtain ⟨a, ha⟩ := _clean_id_ok hid
  obtain ⟨b, hb⟩ := _clean_id_ok hdoi
  obtain ⟨c, hc⟩ := _clean_id_ok hsid
  obtain ⟨ofs, hofs⟩ := fieldObjOrMissing_obj hoa
  refine isOkE_exists ?_
  simp [get_table_works, ha, hb, hc, hofs]

theorem institutionIdOf_ok {i : Json} (h : wellShapedInstitution i = true) :
    ∃ y, institutionIdOf i = .ok y := by
  cases i with
  | obj ifs =>
    simp only [wellShapedInstitution, Bool.and_eq_true] at h
    obtain ⟨y, hy⟩ := _clean_id_ok h.1
    exact ⟨y, by simp [institutionIdOf, hy]⟩
  | null => simp [wellShapedInstitution] at h
  | bool b => simp [wellShapedInstitution] at h
  | num n => simp [wellShapedInstitution] at h
  | str s => simp [wellShapedInstitution] at h
  | arr a => simp [wellShapedInstitution] at h

theorem institutionRow_ok {i : Json} (h : wellShapedInstitution i = true) :
    ∃ r, institutionRow i = .ok r := by
  cases i with
  | obj ifs =>
    simp only [wellShapedInstitution, Bool.and_eq_true] at h
    obtain ⟨a, ha⟩ := _clean_id_ok h.1
    obtain ⟨b, hb⟩ := _clean_id_ok h.2
    refine isOkE_exists ?_
    simp [institutionRow, ha, hb]
  | null => simp [wellShapedInstitution] at h
  | bool b => simp [wellShapedInstitution] at h
  | num n => simp [wellShapedInstitution] at h
  | str s => simp [wellShapedInstitution] at h
  | arr a => simp [wellShapedInstitution] at h

/-- Destructured well-shapedness of an authorship dict. -/
theorem wellShapedAuthorship_parts {afs : List (String × Json)}
    (h : wellShapedAuthorship (.obj afs) = true) :
    ∃ aofs, (afs.lookup "author").getD (.obj []) = .obj aofs
      ∧ cleanOk (lookupJ aofs "id") = true
      ∧ cleanOk (lookupJ aofs "orcid") = true
      ∧ institutionsFieldOk afs = true := by
  simp only [wellShapedAuthorship, Bool.and_eq_true, and_assoc] at h
  obtain ⟨h1, h2, h3, h4⟩ := h
  obtain ⟨aofs, haofs⟩ := fieldObjOrMissing_obj h1
  rw [haofs] at h2 h3
  simp only [objField] at h2 h3
  exact ⟨aofs, haofs, h2, h3, h4⟩

theorem authorshipRow_ok {fs : List (String × Json)}
    (hid : cleanOk (lookupJ fs "id") = true) {a : Json}
    (ha : wellShapedAuthorship a = true) :
    ∃ r, authorshipRow (.obj fs) a = .ok r := by
  cases a with
  | obj afs =>
    obtain ⟨aofs, haofs, hida, _, hinst⟩ := wellShapedAuthorship_parts ha
    obtain ⟨wid, hwid⟩ := _clean_id_ok hid
    obtain ⟨aid, haid⟩ := _clean_id_ok hida
    obtain ⟨harr, hall⟩ := arrFieldOk_spec hinst
    obtain ⟨ids, hids, _⟩ := mapME_ok_length (fun i hi => institutionIdOf_ok (hall i hi))
    refine isOkE_exists ?_
    simp [authorshipRow, hwid, haofs, haid, harr, hids]
  | null => simp [wellShapedAuthorship] at ha
  | bool b => simp [wellShapedAuthorship] at ha
  | num n => simp [wellShapedAuthorship] at ha
  | str s => simp [wellShapedAuthorship] at ha
  | arr xs => simp [wellShapedAuthorship] at ha

theorem authorRow_ok {a : Json} (ha : wellShapedAuthorship a = true) :
    ∃ r, authorRow a = .ok r := by
  cases a with
  | obj afs =>
    obtain ⟨aofs, haofs, hida, horc, _⟩ := wellShapedAuthorship_parts ha
    obtain ⟨aid, haid⟩ := _clean_id_ok hida
    obtain ⟨orc, horcid⟩ := _clean_id_ok horc
    refine isOkE_exists ?_
    simp [authorRow, haofs, haid, horcid]
  | null => simp [wellShapedAuthorship] at ha
  | bool b => simp [wellShapedAuthorship] at ha
  | num n => simp [wellShapedAuthorship] at ha
  | str s => simp [wellShapedAuthorship] at ha
  | arr xs => simp [wellShapedAuthorship] at ha

theorem institutionRowsOfAuthorship_ok {a : Json}
    (ha : wellShapedAuthorship a = true) :
    ∃ ys, institutionRowsOfAuthorship a = .ok ys
      ∧ ys.length = (institutionsOf a).length := by
  cases a with
  | obj afs =>
    obtain ⟨_, _, _, _, hinst⟩ := wellShapedAuthorship_parts ha
    obtain ⟨harr, hall⟩ := arrFieldOk_spec hinst
    obtain ⟨ys, hys, hlen⟩ := mapME_ok_length (fun i hi => institutionRow_ok (hall i hi))
    refine ⟨ys, ?_, ?_⟩
    · simp [institutionRowsOfAuthorship, harr, hys]
    · rw [hlen]
      simp [institutionsOf]
  | null => simp [wellShapedAuthorship] at ha
  | bool b => simp [wellShapedAuthorship] at ha
  | num n => simp [wellShapedAuthorship] at ha
  | str s => simp [wellShapedAuthorship] at ha
  | arr xs => simp [wellShapedAuthorship] at ha

theorem citedRow_ok {fs : List (String × Json)}
    (hid : cleanOk (lookupJ fs "id") = true) {c : Json} (hc : isObjJ c = true) :
    ∃ r, citedRow (.obj fs) c = .ok r := by
  cases c with
  | obj cfs =>
    obtain ⟨wid, hwid⟩ := _clean_id_ok hid
    refine isOkE_exists ?_
    simp [citedRow, hwid]
  | null => simp [isObjJ] at hc
  | bool b => simp [isObjJ] at hc
  | num n => simp [isObjJ] at hc
  | str s => simp [isObjJ] at hc
  | arr a => simp [isObjJ] at hc

/-- Destructured well-shapedness of a topic dict. -/
theorem wellShapedTopic_parts {tfs : List (String × Json)}
    (h : wellShapedTopic (.obj tfs) = true) :
    cleanOk (lookupJ tfs "id") = true
    ∧ (∃ sofs, (tfs.lookup "subfield").getD (.obj []) = .obj sofs
        ∧ cleanOk (lookupJ sofs "id") = true)
    ∧ (∃ fofs, (tfs.lookup "field").getD (.obj []) = .obj fofs
        ∧ cleanOk (lookupJ fofs "id") = true)
    ∧ (∃ dofs, (tfs.lookup "domain").getD (.obj []) = .obj dofs
        ∧ cleanOk (lookupJ dofs "id") = true) := by
  simp only [wellShapedTopic, subObjOk, Bool.and_eq_true, and_assoc] at h
  obtain ⟨h0, h1a, h1b, h2a, h2b, h3a, h3b⟩ := h
  obtain ⟨sofs, hs⟩ := fieldObjOrMissing_obj h1a
  obtain ⟨fofs, hf⟩ := fieldObjOrMissing_obj h2a
  obtain ⟨dofs, hd⟩ := fieldObjOrMissing_obj h3a
  rw [hs] at h1b
  rw [hf] at h2b
  rw [hd] at h3b
  simp only [objField] at h1b h2b h3b
  exact ⟨h0, ⟨sofs, hs, h1b⟩, ⟨fofs, hf, h2b⟩, ⟨dofs, hd, h3b⟩⟩

theorem topicByWorkRow_ok {fs : List (String × Json)}
    (hid : cleanOk (lookupJ fs "id") = true) {t : Json}
    (ht : wellShapedTopic t = true) :
    ∃ r, topicByWorkRow (.obj fs) t = .ok r := by
  cases t with
  | obj tfs =>
    obtain ⟨h0, _, _, _⟩ := wellShapedTopic_parts ht
    obtain ⟨wid, hwid⟩ := _clean_id_ok hid
    obtain ⟨tid, htid⟩ := _clean_id_ok h0
    refine isOkE_exists ?_
    simp [topicByWorkRow, hwid, htid]
  | null => simp [wellShapedTopic] at ht
  | bool b => simp [wellShapedTopic] at ht
  | num n => simp [wellShapedTopic] at ht
  | str s => simp [wellShapedTopic] at ht
  | arr a => simp [wellShapedTopic] at ht

theorem topicRow_ok {t : Json} (ht : wellShapedTopic t = true) :
    ∃ r, topicRow t = .ok r := by
  cases t with
  | obj tfs =>
    obtain ⟨h0, ⟨sofs, hs, hsid⟩, ⟨fofs, hf, hfid⟩, ⟨dofs, hd, hdid⟩⟩ :=
      wellShapedTopic_parts ht
    obtain ⟨tid, htid⟩ := _clean_id_ok h0
    obtain ⟨sid, hsid2⟩ := _clean_id_ok hsid
    obtain ⟨fid, hfid2⟩ := _clean_id_ok hfid
    obtain ⟨did, hdid2⟩ := _clean_id_ok hdid
    refine isOkE_exists ?_
    simp [topicRow, htid, hs, hsid2, hf, hfid2, hd, hdid2]
  | null => simp [wellShapedTopic] at ht
  | bool b => simp [wellShapedTopic] at ht
  | num n => simp [wellShapedTopic] at ht
  | str s => simp [wellShapedTopic] at ht
  | arr a => simp [wellShapedTopic] at ht

theorem get_table_authorships_ok {fs : List (String × Json)}
    (hid : cleanOk (lookupJ fs "id") = true) (h : authorshipsFieldOk fs = true) :
    ∃ rs, get_table_authorships (.obj fs) = .ok rs
      ∧ rs.length = (authorshipsOf (.obj fs)).length := by
  obtain ⟨harr, hall⟩ := arrFieldOk_spec h
  obtain ⟨rs, hrs, hlen⟩ := mapME_ok_length (fun a ha => authorshipRow_ok hid (hall a ha))
  refine ⟨rs, ?_, ?_⟩
  · simp [get_table_authorships, harr, hrs]
  · rw [hlen]
    simp [authorshipsOf]

theorem get_table_authors_ok {fs : List (String × Json)}
    (h : authorshipsFieldOk fs = true) :
    ∃ rs, get_table_authors (.obj fs) = .ok rs
      ∧ rs.length = (authorshipsOf (.obj fs)).length := by
  obtain ⟨harr, hall⟩ := arrFieldOk_spec h
  obtain ⟨rs, hrs, hlen⟩ := mapME_ok_length (fun a ha => authorRow_ok (hall a ha))
  refine ⟨rs, ?_, ?_⟩
  · simp [get_table_authors, harr, hrs]
  · rw [hlen]
    simp [authorshipsOf]

theorem get_table_institutions_ok {fs : List (String × Json)}
    (h : authorshipsFieldOk fs = true) :
    ∃ rs, get_table_institutions (.obj fs) = .ok rs
      ∧ rs.length
          = ((authorshipsOf (.obj fs)).map (fun a => (institutionsOf a).length)).sum := by
  obtain ⟨harr, hall⟩ := arrFieldOk_spec h
  obtain ⟨nested, hnested, hforall⟩ := mapME_ok_of_forall
    (fun a ys => ys.length = (institutionsOf a).length)
    (fun a ha => institutionRowsOfAuthorship_ok (hall a ha))
  refine ⟨nested.flatten, ?_, ?_⟩
  · simp [get_table_institutions, harr, hnested]
  · rw [flatten_length_sum]
    have hm : nested.map List.length
        = (arrFieldOf fs "authorships").map (fun a => (institutionsOf a).length) :=
      forall₂_map_eq hforall
    rw [hm]
    simp [authorshipsOf]

theorem get_table_cited_by_year_ok {fs : List (String × Json)}
    (hid : cleanOk (lookupJ fs "id") = true) (h : countsFieldOk fs = true) :
    ∃ rs, get_table_cited_by_year (.obj fs) = .ok rs
      ∧ rs.length = (countsOf (.obj fs)).length := by
  obtain ⟨harr, hall⟩ := arrFieldOk_spec h
  obtain ⟨rs, hrs, hlen⟩ := mapME_ok_length (fun c hc => citedRow_ok hid (hall c hc))
  refine ⟨rs, ?_, ?_⟩
  · simp [get_table_cited_by_year, harr, hrs]
  · rw [hlen]
    simp [countsOf]

theorem get_table_topics_by_work_ok {fs : List (String × Json)}
    (hid : cleanOk (lookupJ fs "id") = true) (h : topicsFieldOk fs = true) :
    ∃ rs, get_table_topics_by_work (.obj fs) = .ok rs
      ∧ rs.length = (topicsOf (.obj fs)).length := by
  obtain ⟨harr, hall⟩ := arrFieldOk_spec h
  obtain ⟨rs, hrs, hlen⟩ := mapME_ok_length (fun t ht => topicByWorkRow_ok hid (hall t ht))
  refine ⟨rs, ?_, ?_⟩
  · simp [get_table_topics_by_work, harr, hrs]
  · rw [hlen]
    simp [topicsOf]

theorem get_table_topics_ok {fs : List (String × Json)}
    (h : topicsFieldOk fs = true) :
    ∃ rs, get_table_topics (.obj fs) = .ok rs
      ∧ rs.length = (topicsOf (.obj fs)).length := by
  obtain ⟨harr, hall⟩ := arrFieldOk_spec h
  obtain ⟨rs, hrs, hlen⟩ := mapME_ok_length (fun t ht => topicRow_ok (hall t ht))
  refine ⟨rs, ?_, ?_⟩
  · simp [get_table_topics, harr, hrs]
  · rw [hlen]
    simp [topicsOf]

/-- Master lemma: a well-shaped record parses without an exception, and every
list-valued table has as many rows as the corresponding entries of the
record (institutions flattened across authorships). -/
theorem get_all_tables_ok {j : Json} (h : wellShapedWork j = true) :
    ∃ t : AllTables, get_all_tables j = .ok t
      ∧ t.authorships.length = (authorshipsOf j).length
      ∧ t.authors.length = (authorshipsOf j).length
      ∧ t.institutions.length
          = ((authorshipsOf j).map (fun a => (institutionsOf a).length)).sum
      ∧ t.cited_by_year.length = (countsOf j).length
      ∧ t.topics.length = (topicsOf j).length
      ∧ t.topics_by_work.length = (topicsOf j).length := by
  cases j with
  | obj fs =>
    simp only [wellShapedWork, Bool.and_eq_true, and_assoc] at h
    obtain ⟨hpl, hid, hdoi, hoa, hauth, hcnt, htop⟩ := h
    obtain ⟨sfs, hws, hsid, hsho⟩ := workSource_ok hpl
    obtain ⟨ps, hps⟩ := get_table_primary_source_ok hsid hsho
    obtain ⟨aus, haus, hauslen⟩ := get_table_authors_ok hauth
    obtain ⟨ins, hins, hinslen⟩ := get_table_institutions_ok hauth
    obtain ⟨tps, htps, htpslen⟩ := get_table_topics_ok htop
    obtain ⟨wk, hwk⟩ := get_table_works_ok hid hdoi hoa hsid
    obtain ⟨ashp, hashp, hashplen⟩ := get_table_authorships_ok hid hauth
    obtain ⟨cbs, hcbs, hcbslen⟩ := get_table_cited_by_year_ok hid hcnt
    obtain ⟨tbw, htbw, htbwlen⟩ := get_table_topics_by_work_ok hid htop
    refine ⟨⟨ps, aus, ins, tps, wk, ashp, cbs, tbw⟩, ?_, hashplen, hauslen,
      hinslen, hcbslen, htpslen, htbwlen⟩
    simp [get_all_tables, hws, hps, haus, hins, htps, hwk, hashp, hcbs, htbw]
  | null => simp [wellShapedWork] at h
  | bool b => simp [wellShapedWork] at h
  | num n => simp [wellShapedWork] at h
  | str s => simp [wellShapedWork] at h
  | arr a => simp [wellShapedWork] at h

/-- A raw record in which every nested sub-object the claim names is absent:
no `primary_location`/`source`, one authorship without its `author`
sub-object, and one topic without `subfield`/`field`/`domain`. -/
def recAllAbsent : Json := Json.obj [
  ("authorships", Json.arr [Json.obj []]),
  ("counts_by_year", Json.arr []),
  ("topics", Json.arr [Json.obj []])]

/-- C3 counterexample: an authorship whose `author` sub-object is present but
**null** makes `get_all_tables` raise (`authorship.get("author", {})` returns
the stored `None`, and `None.get("id")` is an `AttributeError`), so the
claim's "missing **or null**" quantification fails for the author
sub-object. -/
theorem c3_null_author_counterexample :
    get_all_tables
        (Json.obj [("authorships", Json.arr [Json.obj [("author", Json.null)]])])
      = .error "AttributeError" := by
  rfl

/-- C3 (amended): `get_all_tables` completes without raising for every record
in which the `primary_location`/`source` chain is missing **or null** and the
other nested sub-objects (an authorship's `author`, a topic's
`subfield`/`field`/`domain`, `open_access`) are **missing** (a stored null
there raises); on a record with all of them absent, every field derived from
the absent data is null in the produced rows, except the list-valued `issn`,
which degrades to the empty list. -/
theorem c3_parse_shape_safety :
    (∀ j : Json, wellShapedWork j = true → ∃ t, get_all_tables j = .ok t)
    ∧ get_all_tables recAllAbsent = .ok
        ⟨[("source_id", .null), ("source_name", .null), ("source_issn_l", .null),
          ("issn", .arr []), ("is_oa", .null), ("host_organization_id", .null),
          ("host_organization_name", .null), ("type", .null)],
         [[("author_id", .null), ("author_name", .null), ("orcid", .null)]],
         [],
         [[("topic_id", .null), ("topic_name", .null), ("subfield_id", .null),
           ("subfield_name", .null), ("field_id", .null), ("field_name", .null),
           ("domain_id", .null), ("domain_name", .null)]],
         [("work_id", .null), ("doi", .null), ("work_title", .null),
          ("publication_year", .null), ("publication_date", .null),
          ("work_type", .null), ("cited_by_count", .null),
          ("primary_source_id", .null), ("is_oa", .null), ("oa_status", .null),
          ("referenced_works_count", .null), ("indexed_in", .arr [])],
         [[("work_id", .null), ("author_id", .null), ("author_position", .null),
           ("is_corresponding", .null), ("institution_id", .arr [])]],
         [],
         [[("work_id", .null), ("topic_id", .null), ("score", .null)]]⟩ := by
  constructor
  · intro j h
    obtain ⟨t, ht, _⟩ := get_all_tables_ok h
    exact ⟨t, ht⟩
  · rfl

/-- Witness for `c3_parse_shape_safety` at the all-absent record. -/
theorem c3_parse_shape_safety_witness :
    wellShapedWork recAllAbsent = true
    ∧ ∃ t, get_all_tables recAllAbsent = .ok t := by
  exact ⟨rfl, c3_parse_shape_safety.1 recAllAbsent rfl⟩

/-- The synthetic work record of the parser-completeness property: a present
source, 2 authorships (the first with 2 institutions, the second with 0),
3 counts-by-year entries and 2 topic assignments. -/
def syntheticWork : Json := Json.obj [
  ("id", .str "https://openalex.org/W1"),
  ("doi", .str "https://doi.org/10.1234/w1"),
  ("title", .str "A synthetic work"),
  ("publication_year", .num 2020),
  ("publication_date", .str "2020-01-01"),
  ("type", .str "article"),
  ("cited_by_count", .num 5),
  ("primary_location", .obj [("source", .obj [
      ("id", .str "https://openalex.org/S1"),
      ("display_name", .str "Journal"),
      ("issn_l", .str "1234-5678"),
      ("issn", .arr [.str "1234-5678"]),
      ("is_oa", .bool true),
      ("host_organization", .str "https://openalex.org/P1"),
      ("host_organization_name", .str "Publisher"),
      ("type", .str "journal")])]),
  ("open_access", .obj [("is_oa", .bool true), ("oa_status", .str "gold")]),
  ("referenced_works_count", .num 10),
  ("indexed_in", .arr [.str "crossref"]),
  ("authorships", .arr [
    .obj [("author", .obj [("id", .str "https://openalex.org/A1"),
            ("display_name", .str "Alice"),
            ("orcid", .str "https://orcid.org/0000-0001")]),
          ("author_position", .str "first"),
          ("is_corresponding", .bool true),
          ("institutions", .arr [
            .obj [("id", .str "https://openalex.org/I1"),
                  ("display_name", .str "UFRJ"),
                  ("ror", .str "https://ror.org/03490as77"),
                  ("type", .str "education"), ("country_code", .str "BR")],
            .obj [("id", .str "https://openalex.org/I2"),
                  ("display_name", .str "Inst2"),
                  ("ror", .str "https://ror.org/00x2"),
                  ("type", .str "education"), ("country_code", .str "BR")]])],
    .obj [("author", .obj [("id", .str "https://openalex.org/A2"),
            ("display_name", .str "Bob"), ("orcid", Json.null)]),
          ("author_position", .str "last"),
          ("is_corresponding", .bool false),
          ("institutions", .arr [])]]),
  ("counts_by_year", .arr [
    .obj [("year", .num 2020), ("cited_by_count", .num 1)],
    .obj [("year", .num 2021), ("cited_by_count", .num 2)],
    .obj [("year", .num 2022), ("cited_by_count", .num 2)]]),
  ("topics", .arr [
    .obj [("id", .str "https://openalex.org/T1"), ("display_name", .str "Topic1"),
          ("score", .num 9),
          ("subfield", .obj [("id", .str "https://openalex.org/SF1"),
            ("display_name", .str "Sub1")]),
          ("field", .obj [("id", .str "https://openalex.org/F1"),
            ("display_name", .str "Field1")]),
          ("domain", .obj [("id", .str "https://openalex.org/D1"),
            ("display_name", .str "Domain1")])],
    .obj [("id", .str "https://openalex.org/T2"), ("display_name", .str "Topic2"),
          ("score", .num 3),
          ("subfield", .obj [("id", .str "https://openalex.org/SF2"),
            ("display_name", .str "Sub2")]),
          ("field", .obj [("id", .str "https://openalex.org/F2"),
            ("display_name", .str "Field2")]),
          ("domain", .obj [("id", .str "https://openalex.org/D2"),
            ("display_name", .str "Domain2")])]])]

/-- C8: for every well-shaped record with 2 authorships whose institution
lists have sizes 2 and 0, 3 counts-by-year entries, and 2 topic assignments,
the parser returns exactly 1 works row, 1 primary_source row, 2 authorships
rows, 2 authors rows, 2 institutions rows (flattened across authorships),
3 cited_by_year rows, 2 topics_by_work rows and 2 topics rows. -/
theorem c8_parser_completeness (j : Json)
    (h : wellShapedWork j = true)
    (ha : (authorshipsOf j).length = 2)
    (hi : (authorshipsOf j).map (fun a => (institutionsOf a).length) = [2, 0])
    (hc : (countsOf j).length = 3)
    (ht : (topicsOf j).length = 2) :
    ∃ t : AllTables, get_all_tables j = .ok t
      ∧ (tableRows t "works").length = 1
      ∧ (tableRows t "primary_source").length = 1
      ∧ (tableRows t "authorships").length = 2
      ∧ (tableRows t "authors").length = 2
      ∧ (tableRows t "institutions").length = 2
      ∧ (tableRows t "cited_by_year").length = 3
      ∧ (tableRows t "topics_by_work").length = 2
      ∧ (tableRows t "topics").length = 2 := by
  obtain ⟨t, hok, h1, h2, h3, h4, h5, h6⟩ := get_all_tables_ok h
  refine ⟨t, hok, rfl, rfl, ?_, ?_, ?_, ?_, ?_, ?_⟩
  · show t.authorships.length = 2
    rw [h1, ha]
  · show t.authors.length = 2
    rw [h2, ha]
  · show t.institutions.length = 2
    rw [h3, hi]
    rfl
  · show t.cited_by_year.length = 3
    rw [h4, hc]
  · show t.topics_by_work.length = 2
    rw [h6, ht]
  · show t.topics.length = 2
    rw [h5, ht]

/-- Witness for `c8_parser_completeness` at the synthetic record. -/
theorem c8_parser_completeness_witness :
    wellShapedWork syntheticWork = true
    ∧ (authorshipsOf syntheticWork).length = 2
    ∧ (authorshipsOf syntheticWork).map (fun a => (institutionsOf a).length) = [2, 0]
    ∧ (countsOf syntheticWork).length = 3
    ∧ (topicsOf syntheticWork).length = 2
    ∧ ∃ t : AllTables, get_all_tables syntheticWork = .ok t
      ∧ (tableRows t "works").length = 1
      ∧ (tableRows t "primary_source").length = 1
      ∧ (tableRows t "authorships").length = 2
      ∧ (tableRows t "authors").length = 2
      ∧ (tableRows t "institutions").length = 2
      ∧ (tableRows t "cited_by_year").length = 3
      ∧ (tableRows t "topics_by_work").length = 2
      ∧ (tableRows t "topics").length = 2 := by
  refine ⟨rfl, rfl, rfl, rfl, rfl, ?_⟩
  exact c8_parser_completeness syntheticWork rfl rfl rfl rfl rfl
